import Mathlib

/-!
Verification development for the events admin front end
(`src/types/home-types.ts`, `src/components/admin/events/events-management.tsx`).

Strings are modelled as lists of characters (`Str`); the JavaScript string
builtins used by the code are modelled on that representation:
`String.prototype.includes` is contiguous-substring containment,
`String.prototype.toLowerCase` maps `Char.toLower` over the characters.
Asynchronous service calls are modelled by a `ServiceOutcome` value: either a
resolved `ApiResponse` or a thrown exception.  React `useState` cells of a
component are collected into explicit state records, and a handler becomes a
function from the old state (plus the outcomes of the service calls it makes)
to the new state.
-/

/-- JavaScript strings, modelled as lists of characters. -/
abbrev Str := List Char

/-- Embed a Lean string literal into the model. -/
def str (s : String) : Str := s.data

/-- From `src/types/home-types.ts`, lines 1-6: the uniform response envelope.
All three payload fields are optional and mutually independent, exactly as in
the TypeScript interface. -/
structure ApiResponse (T : Type) where
  success : Bool
  data : Option T
  message : Option Str
  error : Option Str
deriving DecidableEq

/-- The exactly-one-of-`data`/`error` invariant claimed for `ApiResponse`:
success carries `data` and no `error`; failure carries `error` (or `message`)
and no `data`. -/
def apiInvariant {T : Type} (r : ApiResponse T) : Prop :=
  (r.success = true → r.data.isSome = true ∧ r.error = none) ∧
  (r.success = false → (r.error.isSome = true ∨ r.message.isSome = true) ∧ r.data = none)

/-- A value that is well typed at `ApiResponse` (every field optional and
independent) yet pairs `success := true` with an absent `data` and a present
`error`. -/
def badResponse : ApiResponse Unit :=
  { success := true, data := none, message := none, error := some (str "boom") }

/-- Modelled from the spec: the service layer (`src/service/events-apis.ts`,
not under the sources) performs one network call per function and never throws
for ordinary failure; every outcome is normalized into either a success
envelope carrying `data` or a failure envelope carrying `error`. -/
def serviceResult (T : Type) (outcome : Except Str T) : ApiResponse T :=
  match outcome with
  | .ok d => { success := true, data := some d, message := none, error := none }
  | .error e => { success := false, data := none, message := none, error := some e }

/-- Modelled from the spec and from the component's field accesses
(`src/types/events-types.ts` is not under the sources): an event record. -/
structure Event where
  _id : Str
  name : Str
  description : Str
  startDate : Str
  endDate : Str
  year : Int
  month : Int
  totalDays : Nat
deriving DecidableEq

/-- Modelled from the spec and the component's field accesses: one timed
session inside an event day. -/
structure Session where
  _id : Str
  title : Str
  description : Str
  type : Str
  startTime : Str
  endTime : Str
  speaker : Str
deriving DecidableEq

/-- Modelled from the spec and the component's field accesses: one calendar
day of an event, with its optional list of sessions (`times`). -/
structure EventDay where
  _id : Str
  dayNumber : Nat
  name : Str
  description : Str
  times : Option (List Session)
deriving DecidableEq

/-- Modelled from the spec and the component's field accesses: the payload of
`getAllEvents`, the current event together with its optional day list. -/
structure EventWithDays where
  event : Event
  days : Option (List EventDay)
deriving DecidableEq

/-- JavaScript `haystack.includes(needle)`: contiguous-substring containment. -/
def jsIncludes (haystack needle : Str) : Bool :=
  decide (needle <:+: haystack)

/-- JavaScript `s.toLowerCase()`, character by character. -/
def toLowerStr (s : Str) : Str := s.map Char.toLower

/-- The filter predicate of `filteredDays`
(`events-management.tsx`, lines 98-100): the lower-cased day name or
description includes the lower-cased search term. -/
def dayMatches (searchTerm : Str) (day : EventDay) : Bool :=
  jsIncludes (toLowerStr day.name) (toLowerStr searchTerm) ||
  jsIncludes (toLowerStr day.description) (toLowerStr searchTerm)

/-- `filteredDays` (`events-management.tsx`, lines 96-101):
`events?.days?.filter(...) || []`.  The `|| []` fires exactly when the
optional chain is `undefined`, i.e. when `events` is `null` or `days` is
absent; an empty filter result is itself an array and is returned as is. -/
def filteredDays (events : Option EventWithDays) (searchTerm : Str) : List EventDay :=
  match events with
  | none => []
  | some ev =>
    match ev.days with
    | none => []
    | some days => days.filter (dayMatches searchTerm)

/-- The day list a non-null `events` value holds (empty when `events` is
`null` or `days` is absent); used to state properties of `filteredDays`. -/
def eventDaysOf (events : Option EventWithDays) : List EventDay :=
  match events with
  | none => []
  | some ev => ev.days.getD []

/-- A toast notification as fired through `useToast`. -/
structure Toast where
  title : Str
  description : Str
deriving DecidableEq

/-- Outcome of awaiting a service call: the promise resolves to an
`ApiResponse`, or it rejects (models a thrown exception). -/
inductive ServiceOutcome (T : Type) where
  | ok (r : ApiResponse T)
  | threw
deriving DecidableEq

/-- The `useState` cells of the `EventsManagement` component
(`events-management.tsx`, lines 37-40), plus the toasts fired so far. -/
structure ViewState where
  events : Option EventWithDays
  isDeleting : Option Str
  isLoading : Bool
  toasts : List Toast
deriving DecidableEq

/-- `fetchEvents` (`events-management.tsx`, lines 46-66): set `isLoading`,
await `getAllEvents` (its outcome is the `outcome` argument), store the data
only when `result.success && result.data` (an object is truthy exactly when
present), otherwise toast `result.error || "Failed to fetch events"`; a thrown
exception toasts the generic message; `finally` clears `isLoading`. -/
def fetchEvents (st : ViewState) (outcome : ServiceOutcome EventWithDays) : ViewState :=
  let st1 : ViewState := { st with isLoading := true }
  let st2 : ViewState :=
    match outcome with
    | .ok r =>
      if r.success && r.data.isSome then
        { st1 with events := r.data }
      else
        { st1 with toasts := st1.toasts ++
            [{ title := str "Error",
               description := r.error.getD (str "Failed to fetch events") }] }
    | .threw =>
      { st1 with toasts := st1.toasts ++
          [{ title := str "Error", description := str "An unexpected error occurred" }] }
  { st2 with isLoading := false }

/-- One observable step taken by `handleDeleteEvent`, in program order. -/
inductive DeleteAction where
  | setIsDeleting (v : Option Str)
  | callDeleteEvent (id : Str)
  | showToast (t : Toast)
  | callFetchEvents
deriving DecidableEq

/-- `handleDeleteEvent` (`events-management.tsx`, lines 68-94) as the trace of
steps it performs: a declined `confirm` returns at once; otherwise
`setIsDeleting(eventId)`, the `deleteEvent` call, then per outcome the success
toast (`result.message || "Event deleted successfully"`) plus a re-fetch, or
the error toast (`result.error || "Failed to delete event"`), or the
exception toast; `finally` runs `setIsDeleting(null)` last. -/
def handleDeleteEvent (confirmed : Bool) (eventId : Str)
    (outcome : ServiceOutcome Unit) : List DeleteAction :=
  if !confirmed then []
  else
    DeleteAction.setIsDeleting (some eventId) ::
    DeleteAction.callDeleteEvent eventId ::
    ((match outcome with
      | .ok r =>
        if r.success then
          [DeleteAction.showToast
             { title := str "Success",
               description := r.message.getD (str "Event deleted successfully") },
           DeleteAction.callFetchEvents]
        else
          [DeleteAction.showToast
             { title := str "Error",
               description := r.error.getD (str "Failed to delete event") }]
      | .threw =>
        [DeleteAction.showToast
           { title := str "Error", description := str "An unexpected error occurred" }]) ++
     [DeleteAction.setIsDeleting none])

/-- Effect of one `DeleteAction` on the component state; the re-fetch runs
`fetchEvents` with the outcome of its own `getAllEvents` call. -/
def applyAction (fetchOutcome : ServiceOutcome EventWithDays)
    (st : ViewState) : DeleteAction → ViewState
  | .setIsDeleting v => { st with isDeleting := v }
  | .callDeleteEvent _ => st
  | .showToast t => { st with toasts := st.toasts ++ [t] }
  | .callFetchEvents => fetchEvents st fetchOutcome

/-- The component state after a whole `handleDeleteEvent` run. -/
def runDelete (st : ViewState) (confirmed : Bool) (eventId : Str)
    (deleteOutcome : ServiceOutcome Unit)
    (fetchOutcome : ServiceOutcome EventWithDays) : ViewState :=
  (handleDeleteEvent confirmed eventId deleteOutcome).foldl (applyAction fetchOutcome) st

/-- `CreateEventData` (modelled from the spec and the form's fields;
`src/types/events-types.ts` is not under the sources): the flat creation
payload, with numeric `year` and `month`. -/
structure CreateEventData where
  name : Str
  description : Str
  startDate : Str
  endDate : Str
  year : Int
  month : Int
deriving DecidableEq

/-- Numeric value of a run of decimal digits. -/
def digitsVal (ds : List Char) : Nat :=
  ds.foldl (fun a c => a * 10 + (c.toNat - Char.toNat (Char.ofNat 48))) 0

/-- Longest leading run of decimal digits, `none` when there is none. -/
def parseDigits (s : Str) : Option Nat :=
  let ds := s.takeWhile Char.isDigit
  if ds.isEmpty then none else some (digitsVal ds)

/-- JavaScript `Number.parseInt(value)` in its default decimal reading (the
hexadecimal `0x` prefix form is not modelled; the inputs feeding it are
numeric form fields): skip leading whitespace, an optional sign, then the
longest digit run; `none` models the `NaN` result when no digit follows. -/
def jsParseInt (s : Str) : Option Int :=
  let s1 := s.dropWhile Char.isWhitespace
  match s1 with
  | '-' :: rest => (parseDigits rest).map (fun n => -(n : Int))
  | '+' :: rest => (parseDigits rest).map (fun n => (n : Int))
  | _ => (parseDigits s1).map (fun n => (n : Int))

/-- The six named inputs wired to `handleChange` in the create-event form. -/
inductive FormField where
  | name
  | description
  | startDate
  | endDate
  | year
  | month
deriving DecidableEq

/-- `handleChange` (`events-management.tsx` second document, lines 448-454):
`[name]: name === "year" || name === "month" ? Number.parseInt(value) || 0 : value`.
Since `NaN || 0` and `0 || 0` both evaluate to `0`, the numeric branch is
exactly `(jsParseInt value).getD 0`. -/
def handleChange (prev : CreateEventData) (field : FormField) (value : Str) :
    CreateEventData :=
  match field with
  | .year => { prev with year := (jsParseInt value).getD 0 }
  | .month => { prev with month := (jsParseInt value).getD 0 }
  | .name => { prev with name := value }
  | .description => { prev with description := value }
  | .startDate => { prev with startDate := value }
  | .endDate => { prev with endDate := value }

/-- The observable outcome of one `handleSubmit` run: the toasts fired, the
payload passed to `addEvent` (`none` when the call was never made), the final
form state, and the final `isLoading` flag. -/
structure SubmitResult where
  toasts : List Toast
  called : Option CreateEventData
  formData : CreateEventData
  isLoading : Bool
deriving DecidableEq

/-- JavaScript `new Date(s) < now` where `parseDate` models the browser's
date parsing (`none` is an Invalid Date, whose `NaN` timestamp makes every
comparison false). -/
def dateBefore (parseDate : Str → Option Int) (s : Str) (now : Int) : Bool :=
  match parseDate s with
  | some t => decide (t < now)
  | none => false

/-- The form defaults `handleSubmit` resets to on success
(second document, lines 424-431): empty strings, current year and month. -/
def resetForm (currentYear currentMonth : Int) : CreateEventData :=
  { name := [], description := [], startDate := [], endDate := [],
    year := currentYear, month := currentMonth }

/-- `handleSubmit` (second document, lines 387-446).  `parseDate` models
`new Date(string)` (`none` = Invalid Date) and `toIso` models
`Date.prototype.toISOString` on a valid timestamp.  The two guards test
`formData.startDate && new Date(formData.startDate) < now` and likewise for
the end date, toast and return without calling `addEvent`.  Past the guards,
`setIsLoading(true)` runs and the `try` block converts both dates with
`toISOString`, which throws on an Invalid Date and lands in the `catch`
before `addEvent` is reached; otherwise `addEvent(eventData)` runs and its
outcome picks the success toast plus form reset, the error toast, or the
exception toast; `finally` clears `isLoading`. -/
def handleSubmit (parseDate : Str → Option Int) (toIso : Int → Str) (now : Int)
    (currentYear currentMonth : Int) (formData : CreateEventData)
    (addEventOutcome : ServiceOutcome Unit) : SubmitResult :=
  if !formData.startDate.isEmpty && dateBefore parseDate formData.startDate now then
    { toasts := [{ title := str "Error", description := str "Start Date cannot be in the past." }],
      called := none, formData := formData, isLoading := false }
  else if !formData.endDate.isEmpty && dateBefore parseDate formData.endDate now then
    { toasts := [{ title := str "Error", description := str "End Date cannot be in the past." }],
      called := none, formData := formData, isLoading := false }
  else
    match parseDate formData.startDate, parseDate formData.endDate with
    | some t1, some t2 =>
      let eventData : CreateEventData :=
        { formData with startDate := toIso t1, endDate := toIso t2 }
      (match addEventOutcome with
       | .ok r =>
         if r.success then
           { toasts := [{ title := str "Success",
                          description := r.message.getD (str "Event created successfully") }],
             called := some eventData,
             formData := resetForm currentYear currentMonth,
             isLoading := false }
         else
           { toasts := [{ title := str "Error",
                          description := r.error.getD (str "Failed to create event") }],
             called := some eventData, formData := formData, isLoading := false }
       | .threw =>
         { toasts := [{ title := str "Error", description := str "An unexpected error occurred" }],
           called := some eventData, formData := formData, isLoading := false })
    | _, _ =>
      { toasts := [{ title := str "Error", description := str "An unexpected error occurred" }],
        called := none, formData := formData, isLoading := false }

/-- A concrete event used by the witnesses below. -/
def eventEx : Event :=
  { _id := str "e1", name := str "Fest", description := str "d",
    startDate := str "2025-03-01", endDate := str "2025-03-02",
    year := 2025, month := 3, totalDays := 2 }

/-- A concrete event day used by the witnesses below. -/
def dayEx : EventDay :=
  { _id := str "d1", dayNumber := 1, name := str "Opening Day",
    description := str "welcome", times := none }

/-- A concrete form state used by the witnesses below. -/
def formEx : CreateEventData :=
  { name := str "Spring Fest 2025", description := str "a festival",
    startDate := str "2025-03-10T10:00", endDate := str "2025-03-12T18:00",
    year := 2025, month := 3 }

/-- Helper: the Boolean match predicate agrees with the propositional
case-insensitive-substring reading. -/
theorem dayMatches_eq_decide (t : Str) (d : EventDay) :
    dayMatches t d =
      decide ((toLowerStr t <:+: toLowerStr d.name) ∨
              (toLowerStr t <:+: toLowerStr d.description)) := by
  simp [dayMatches, jsIncludes]

/-- C1 counterexample: the `ApiResponse` type, whose `data`, `message` and
`error` fields are independent optionals, admits the well-typed value
`badResponse` with `success = true`, no `data` and a present `error`; hence
the type itself does not uphold the exactly-one-of-`data`/`error` invariant. -/
theorem apiResponse_type_counterexample : ¬ apiInvariant badResponse := by
  intro h
  have h2 := (h.1 rfl).2
  simp [badResponse] at h2

/-- C1 (amended): every envelope produced by the (spec-modelled) service
layer satisfies the invariant — success carries `data` and no `error`,
failure carries `error` and no `data` — even though the `ApiResponse` type
does not enforce it. -/
theorem serviceResult_apiInvariant (T : Type) (o : Except Str T) :
    apiInvariant (serviceResult T o) := by
  cases o <;> simp [apiInvariant, serviceResult]

/-- C5: `filteredDays` is exactly the filter of the fetched day list by the
case-insensitive substring match on name or description; its length never
exceeds the source day count; a `null` events value, an absent day list, and
an empty day list each yield `[]`. -/
theorem filteredDays_spec (ev : Option EventWithDays) (t : Str) :
    filteredDays ev t =
        (eventDaysOf ev).filter (fun d =>
          decide ((toLowerStr t <:+: toLowerStr d.name) ∨
                  (toLowerStr t <:+: toLowerStr d.description)))
    ∧ (filteredDays ev t).length ≤ (eventDaysOf ev).length
    ∧ filteredDays none t = []
    ∧ (∀ x : Event, filteredDays (some { event := x, days := none }) t = [])
    ∧ (∀ x : Event, filteredDays (some { event := x, days := some [] }) t = []) := by
  refine ⟨?_, ?_, rfl, fun x => rfl, fun x => rfl⟩
  · cases ev with
    | none => simp [filteredDays, eventDaysOf]
    | some e =>
      cases hd : e.days with
      | none => simp [filteredDays, eventDaysOf, hd]
      | some days =>
        simp only [filteredDays, eventDaysOf, hd, Option.getD_some]
        exact List.filter_congr (fun a _ => dayMatches_eq_decide t a)
  · cases ev with
    | none => simp [filteredDays, eventDaysOf]
    | some e =>
      cases hd : e.days with
      | none => simp [filteredDays, eventDaysOf, hd]
      | some days =>
        simp only [filteredDays, eventDaysOf, hd, Option.getD_some]
        exact List.length_filter_le _ _

/-- C6: any fetched day whose name has the search term as a substring is kept
by `filteredDays`. -/
theorem filteredDays_keeps_name_match (ev : EventWithDays) (ds : List EventDay)
    (d : EventDay) (t : Str) (hd : ev.days = some ds) (hmem : d ∈ ds)
    (hsub : t <:+: d.name) : d ∈ filteredDays (some ev) t := by
  have hlow : toLowerStr t <:+: toLowerStr d.name := List.IsInfix.map Char.toLower hsub
  have hmatch : dayMatches t d = true := by
    rw [dayMatches_eq_decide]
    exact decide_eq_true (Or.inl hlow)
  simp only [filteredDays, hd]
  exact List.mem_filter.mpr ⟨hmem, hmatch⟩

/-- Witness for C6 at a concrete day and search term. -/
theorem filteredDays_keeps_name_match_witness :
    dayEx ∈ filteredDays (some { event := eventEx, days := some [dayEx] }) (str "Day") :=
  filteredDays_keeps_name_match _ [dayEx] dayEx (str "Day") rfl (by simp)
    (by decide)

/-- C2: a form state whose start date parses to a time strictly before `now`
makes `handleSubmit` toast the past-start error and return at once: `addEvent`
is never called, the form keeps its values, and `isLoading` stays `false`,
whatever the service would have answered. -/
theorem handleSubmit_pastStart_blocks (parseDate : Str → Option Int)
    (toIso : Int → Str) (now currentYear currentMonth : Int)
    (fd : CreateEventData) (o : ServiceOutcome Unit) (t : Int)
    (h1 : fd.startDate ≠ []) (h2 : parseDate fd.startDate = some t)
    (h3 : t < now) :
    handleSubmit parseDate toIso now currentYear currentMonth fd o =
      { toasts := [{ title := str "Error",
                     description := str "Start Date cannot be in the past." }],
        called := none, formData := fd, isLoading := false } := by
  have hne : fd.startDate.isEmpty = false := by
    cases hsd : fd.startDate with
    | nil => exact absurd hsd h1
    | cons a l => rfl
  have hdb : dateBefore parseDate fd.startDate now = true := by
    simp [dateBefore, h2, h3]
  simp [handleSubmit, hne, hdb]

/-- Witness for C2: a concrete past start date blocks the submission. -/
theorem handleSubmit_pastStart_blocks_witness :
    handleSubmit (fun _ => some 0) (fun _ => []) 1 2025 3 formEx ServiceOutcome.threw =
      { toasts := [{ title := str "Error",
                     description := str "Start Date cannot be in the past." }],
        called := none, formData := formEx, isLoading := false } :=
  handleSubmit_pastStart_blocks (fun _ => some 0) (fun _ => []) 1 2025 3 formEx
    ServiceOutcome.threw 0 (by decide) rfl (by decide)

/-- C8: when both dates parse and neither lies in the past, a successful
`addEvent` resets the form to its defaults (empty strings, current year and
month), while a failed or throwing `addEvent` leaves the form unchanged. -/
theorem handleSubmit_success_resets (parseDate : Str → Option Int)
    (toIso : Int → Str) (now currentYear currentMonth : Int)
    (fd : CreateEventData) (t1 t2 : Int)
    (h1 : parseDate fd.startDate = some t1) (h2 : ¬ t1 < now)
    (h3 : parseDate fd.endDate = some t2) (h4 : ¬ t2 < now) :
    (∀ (d : Option Unit) (m er : Option Str),
        (handleSubmit parseDate toIso now currentYear currentMonth fd
            (.ok { success := true, data := d, message := m, error := er })).formData
          = resetForm currentYear currentMonth)
    ∧ (∀ (d : Option Unit) (m er : Option Str),
        (handleSubmit parseDate toIso now currentYear currentMonth fd
            (.ok { success := false, data := d, message := m, error := er })).formData
          = fd)
    ∧ (handleSubmit parseDate toIso now currentYear currentMonth fd
          ServiceOutcome.threw).formData = fd := by
  have hdb1 : dateBefore parseDate fd.startDate now = false := by
    simp [dateBefore, h1, h2]
  have hdb2 : dateBefore parseDate fd.endDate now = false := by
    simp [dateBefore, h3, h4]
  refine ⟨fun d m er => ?_, fun d m er => ?_, ?_⟩ <;>
    simp [handleSubmit, hdb1, hdb2, h1, h3]

/-- Witness for C8: a concrete in-range submission resets on success, keeps
the form on failure and on a thrown exception. -/
theorem handleSubmit_success_resets_witness :
    ((handleSubmit (fun _ => some 9) (fun _ => []) 5 2025 3 formEx
        (.ok { success := true, data := some (), message := none, error := none })).formData
      = resetForm 2025 3)
    ∧ ((handleSubmit (fun _ => some 9) (fun _ => []) 5 2025 3 formEx
        (.ok { success := false, data := none, message := none, error := none })).formData
      = formEx)
    ∧ (handleSubmit (fun _ => some 9) (fun _ => []) 5 2025 3 formEx
        ServiceOutcome.threw).formData = formEx := by
  have h := handleSubmit_success_resets (fun _ => some 9) (fun _ => []) 5 2025 3
    formEx 9 9 rfl (by decide) rfl (by decide)
  exact ⟨h.1 (some ()) none none, h.2.1 none none none, h.2.2⟩

/-- C10: `handleChange` on `year`/`month` always stores the integer
`jsParseInt value` with the `NaN` case collapsed to `0` (so a non-parsing
value, the empty string included, is stored as `0`), and a change to any of
the four string fields stores the raw value and leaves `year` and `month`
untouched. -/
theorem handleChange_numeric (prev : CreateEventData) (v : Str) :
    (handleChange prev FormField.year v).year = (jsParseInt v).getD 0
    ∧ (handleChange prev FormField.month v).month = (jsParseInt v).getD 0
    ∧ jsParseInt [] = none
    ∧ ((handleChange prev FormField.year v).year = 0 ∨
        jsParseInt v = some ((handleChange prev FormField.year v).year))
    ∧ ((handleChange prev FormField.month v).month = 0 ∨
        jsParseInt v = some ((handleChange prev FormField.month v).month))
    ∧ (handleChange prev FormField.name v).name = v
    ∧ (handleChange prev FormField.name v).year = prev.year
    ∧ (handleChange prev FormField.name v).month = prev.month
    ∧ (handleChange prev FormField.description v).description = v
    ∧ (handleChange prev FormField.description v).year = prev.year
    ∧ (handleChange prev FormField.description v).month = prev.month
    ∧ (handleChange prev FormField.startDate v).startDate = v
    ∧ (handleChange prev FormField.startDate v).year = prev.year
    ∧ (handleChange prev FormField.startDate v).month = prev.month
    ∧ (handleChange prev FormField.endDate v).endDate = v
    ∧ (handleChange prev FormField.endDate v).year = prev.year
    ∧ (handleChange prev FormField.endDate v).month = prev.month := by
  refine ⟨rfl, rfl, rfl, ?_, ?_, rfl, rfl, rfl, rfl, rfl, rfl, rfl, rfl, rfl,
    rfl, rfl, rfl⟩ <;>
  · cases h : jsParseInt v with
    | none => exact Or.inl (by simp [handleChange, h])
    | some n => exact Or.inr (by simp [handleChange, h])

/-- C3: a confirmed delete opens by setting `isDeleting` to the event id,
immediately invokes `deleteEvent`, and closes by resetting `isDeleting` to
`none`, with no other `isDeleting` write in between — for every service
outcome (success, explicit failure, thrown exception). -/
theorem handleDeleteEvent_brackets (e : Str) (o : ServiceOutcome Unit) :
    ∃ mid : List DeleteAction,
      handleDeleteEvent true e o =
        DeleteAction.setIsDeleting (some e) :: DeleteAction.callDeleteEvent e ::
          (mid ++ [DeleteAction.setIsDeleting none])
      ∧ ∀ a ∈ mid, ∀ v, a ≠ DeleteAction.setIsDeleting v := by
  cases o with
  | ok r =>
    cases hs : r.success with
    | true =>
      refine ⟨[DeleteAction.showToast
          { title := str "Success",
            description := r.message.getD (str "Event deleted successfully") },
        DeleteAction.callFetchEvents], ?_, ?_⟩
      · simp [handleDeleteEvent, hs]
      · intro a ha v
        simp only [List.mem_cons, List.mem_singleton] at ha
        rcases ha with ha | ha | ha
        · simp [ha]
        · simp [ha]
        · exact absurd ha (List.not_mem_nil a)
    | false =>
      refine ⟨[DeleteAction.showToast
          { title := str "Error",
            description := r.error.getD (str "Failed to delete event") }], ?_, ?_⟩
      · simp [handleDeleteEvent, hs]
      · intro a ha v
        simp only [List.mem_singleton] at ha
        simp [ha]
  | threw =>
    refine ⟨[DeleteAction.showToast
        { title := str "Error", description := str "An unexpected error occurred" }], ?_, ?_⟩
    · simp [handleDeleteEvent]
    · intro a ha v
      simp only [List.mem_singleton] at ha
      simp [ha]

/-- C9: a declined confirmation makes `handleDeleteEvent` perform nothing at
all — an empty action trace — and leaves the component state exactly as it
was. -/
theorem handleDeleteEvent_declined (st : ViewState) (e : Str)
    (o : ServiceOutcome Unit) (f : ServiceOutcome EventWithDays) :
    handleDeleteEvent false e o = [] ∧ runDelete st false e o f = st :=
  ⟨rfl, rfl⟩

/-- C4: a confirmed delete whose `deleteEvent` call fails or throws leaves
`events` untouched; a successful one changes `events` only through the
re-fetch, which itself changes `events` only when it returns a successful
envelope with present data. -/
theorem runDelete_events_frame (st : ViewState) (e : Str)
    (f : ServiceOutcome EventWithDays) :
    (∀ (d : Option Unit) (m er : Option Str),
        (runDelete st true e
            (.ok { success := false, data := d, message := m, error := er }) f).events
          = st.events)
    ∧ (runDelete st true e ServiceOutcome.threw f).events = st.events
    ∧ (∀ (d : Option Unit) (m er : Option Str),
        (runDelete st true e
            (.ok { success := true, data := d, message := m, error := er }) f).events
          = (fetchEvents st f).events)
    ∧ ((fetchEvents st f).events = st.events ∨
        ∃ r2, f = ServiceOutcome.ok r2 ∧ r2.success = true ∧ r2.data.isSome = true ∧
          (fetchEvents st f).events = r2.data) := by
  refine ⟨fun d m er => ?_, ?_, fun d m er => ?_, ?_⟩
  · simp [runDelete, handleDeleteEvent, applyAction]
  · simp [runDelete, handleDeleteEvent, applyAction]
  · cases f with
    | ok r2 =>
      by_cases hc : (r2.success && r2.data.isSome) = true <;>
        simp [runDelete, handleDeleteEvent, applyAction, fetchEvents, hc]
    | threw => simp [runDelete, handleDeleteEvent, applyAction, fetchEvents]
  · cases f with
    | ok r2 =>
      by_cases hs : r2.success = true
      · by_cases hd : r2.data.isSome = true
        · exact Or.inr ⟨r2, rfl, hs, hd, by simp [fetchEvents, hs, hd]⟩
        · exact Or.inl (by simp [fetchEvents, hs, hd])
      · exact Or.inl (by simp [fetchEvents, hs])
    | threw => exact Or.inl (by simp [fetchEvents])

/-- C7: `fetchEvents` clears `isLoading` in every outcome; it stores the data
exactly when the envelope is successful with present data (leaving the toasts
alone), and in every other outcome — explicit failure, success without data,
thrown exception — it leaves `events` untouched and appends one error
toast. -/
theorem fetchEvents_updates_only_on_success (st : ViewState) :
    (∀ o : ServiceOutcome EventWithDays, (fetchEvents st o).isLoading = false)
    ∧ (∀ (d : EventWithDays) (m er : Option Str),
        (fetchEvents st (.ok { success := true, data := some d, message := m, error := er })).events
            = some d
        ∧ (fetchEvents st (.ok { success := true, data := some d, message := m, error := er })).toasts
            = st.toasts)
    ∧ (∀ (dta : Option EventWithDays) (m er : Option Str),
        (fetchEvents st (.ok { success := false, data := dta, message := m, error := er })).events
            = st.events
        ∧ (fetchEvents st (.ok { success := false, data := dta, message := m, error := er })).toasts
            = st.toasts ++ [{ title := str "Error",
                              description := er.getD (str "Failed to fetch events") }])
    ∧ (∀ (m er : Option Str),
        (fetchEvents st (.ok { success := true, data := none, message := m, error := er })).events
            = st.events
        ∧ (fetchEvents st (.ok { success := true, data := none, message := m, error := er })).toasts
            = st.toasts ++ [{ title := str "Error",
                              description := er.getD (str "Failed to fetch events") }])
    ∧ ((fetchEvents st ServiceOutcome.threw).events = st.events
        ∧ (fetchEvents st ServiceOutcome.threw).toasts
            = st.toasts ++ [{ title := str "Error",
                              description := str "An unexpected error occurred" }]) := by
  refine ⟨?_, fun d m er => ⟨?_, ?_⟩, fun dta m er => ⟨?_, ?_⟩,
    fun m er => ⟨?_, ?_⟩, ?_, ?_⟩
  · intro o
    cases o with
    | ok r =>
      by_cases hc : (r.success && r.data.isSome) = true <;> simp [fetchEvents, hc]
    | threw => simp [fetchEvents]
  all_goals simp [fetchEvents]
